import Mathlib

/-!
Shallow embedding of fotoshare_album_downloader.py and verification of the
specification claims about it.

The program is a single Python file with four relevant pieces:
the Authenticator (function named login with a leading underscore in
the source), the two-tier URL Resolver (extract_image_urls together with
is_image and the attribute list FULL_RES_ATTRS), the Transfer Engine
(download_one) and the Dispatcher plus exit behaviour (main).

External capabilities (the HTTP session, the parsed HTML tree and the
standard library URL and path helpers) are modelled as plain data:
a page is a list of tags in document order, a session is a function from a
URL to an optional parsed page (none models a transport error or a
non-success status, both of which raise in the source), and the filesystem
is an association list from paths to file contents.
-/

namespace Fotoshare

/-! ### String helpers (character-list based, for transparent proofs) -/

/-- Lower-casing of a string, modelling the Python str.lower call on the
ASCII strings this program handles. -/
def lowerStr (s : String) : String := String.mk (s.data.map Char.toLower)

/-- True when the second list is an initial run of the first list. -/
def leadChars : List Char → List Char → Bool
  | [], _ => true
  | _ :: _, [] => false
  | a :: as, b :: bs => a == b && leadChars as bs

/-- True when the needle occurs somewhere inside the haystack. -/
def subChars (needle : List Char) : List Char → Bool
  | [] => needle.isEmpty
  | c :: rest => leadChars needle (c :: rest) || subChars needle rest

/-- Substring test, modelling the Python in operator on str. -/
def strContains (hay needle : String) : Bool := subChars needle.data hay.data

/-- True when s starts with the given string. -/
def startsWithStr (s pre : String) : Bool := leadChars pre.data s.data

/-! ### Image-extension test: the regex in is_image (source line 86),
raw pattern dot (jpg or jpeg or png or gif) then question mark or end,
case-insensitive, searched at every position. -/

/-- True when cs begins with the given extension followed by a question
mark or the end of the string. -/
def extHere : List Char → List Char → Bool
  | [], [] => true
  | [], c :: _ => c == '?'
  | _ :: _, [] => false
  | e :: es, c :: cs => e == c && extHere es cs

/-- The four lower-cased extensions accepted by the regex in the source. -/
def IMAGE_EXTS : List (List Char) := [".jpg".data, ".jpeg".data, ".png".data, ".gif".data]

/-- Regex search: try the extension test at every position. -/
def imageSearch : List Char → Bool
  | [] => false
  | c :: rest => IMAGE_EXTS.any (fun e => extHere e (c :: rest)) || imageSearch rest

/-- Embeds is_image (source line 85): case-insensitive search for an image
file extension optionally followed by a query string. -/
def is_image (url : String) : Bool := imageSearch (lowerStr url).data

/-! ### URL helpers.  The source delegates to urllib.parse.urljoin and
urlparse; these are external standard-library capabilities, modelled here
for the URL shapes this program handles (absolute http or https links,
root-relative links, and plain relative links). -/

/-- True when the link carries its own http or https scheme. -/
def hasScheme (link : String) : Bool :=
  startsWithStr link "http://" || startsWithStr link "https://"

/-- Characters of the scheme plus host part of an absolute URL. -/
def originChars : List Char → List Char
  | [] => []
  | ':' :: '/' :: '/' :: rest => ':' :: '/' :: '/' :: rest.takeWhile (fun c => c != '/')
  | c :: rest => c :: originChars rest

/-- Scheme plus host of an absolute URL, e.g. https colon slash slash host. -/
def origin (base : String) : String := String.mk (originChars base.data)

/-- The base URL up to and including its last slash. -/
def upToLastSlash (s : String) : String :=
  String.mk ((s.data.reverse.dropWhile (fun c => c != '/')).reverse)

/-- Embeds absolute (source line 80), which wraps urljoin: a link with its
own scheme replaces the base, a root-relative link keeps the base origin,
any other link replaces the final segment of the base. -/
def absolute (base link : String) : String :=
  if hasScheme link then link
  else if startsWithStr link "/" then origin base ++ link
  else upToLastSlash base ++ link

/-- Embeds the query-stripping idiom split on question mark, first part
(source line 114). -/
def stripQuery (s : String) : String :=
  String.mk (s.data.takeWhile (fun c => c != '?'))

/-- Resolution plus query stripping applied to every Tier 1 candidate
(source line 114). -/
def cleanUrl (base s : String) : String := stripQuery (absolute base s)

/-! ### HTML model: a tag with a name and attributes, a page as the list of
its tags in document order. -/

structure Tag where
  name : String
  attrs : List (String × String)
  deriving DecidableEq

/-- Attribute lookup, modelling the BeautifulSoup tag get method. -/
def Tag.get (t : Tag) (a : String) : Option String :=
  (t.attrs.find? (fun p => p.1 == a)).map (fun p => p.2)

abbrev Page := List Tag

/-- The HTTP session as a capability: a GET either yields a parsed page or
fails (transport error or non-success status, both raised in the source). -/
structure Session where
  fetch : String → Option Page

/-! ### Tier 1 of the URL Resolver (source lines 104 to 115). -/

/-- Embeds FULL_RES_ATTRS (source lines 90 to 95). -/
def FULL_RES_ATTRS : List String := ["data-full", "data-original", "data-src", "src"]

/-- The per-candidate filter: src is truthy and is_image holds
(source line 113). -/
def srcKeep (s : String) : Bool := s != "" && is_image s

/-- The raw candidate strings of one tag (source lines 108 to 111): a
truthy href for an anchor, and for an image element the values of all four
attributes of FULL_RES_ATTRS that are present. -/
def tagRawSrcs (t : Tag) : List String :=
  (if t.name == "a" then
    match t.get "href" with
    | some h => if h == "" then [] else [h]
    | none => []
  else []) ++
  (if t.name == "img" then (FULL_RES_ATTRS.map t.get).filterMap id else [])

/-- The cleaned candidates contributed by one tag (source lines 112 to 115). -/
def tagCandidates (base : String) (t : Tag) : List String :=
  ((tagRawSrcs t).filter srcKeep).map (cleanUrl base)

/-- The find_all filter on anchor and image tags (source line 107). -/
def isAnchorOrImg (t : Tag) : Bool := t.name == "a" || t.name == "img"

/-- Concatenation of the images of f over a list, in order. -/
def catMap {α β : Type} (f : α → List β) : List α → List β
  | [] => []
  | a :: as => f a ++ catMap f as

/-- All Tier 1 candidates of a page (source lines 104 to 115). -/
def tier1Candidates (base : String) (soup : Page) : List String :=
  catMap (tagCandidates base) (soup.filter isAnchorOrImg)

/-- The raw candidate strings of the whole page, before the image filter. -/
def tier1RawRefs (soup : Page) : List String :=
  catMap tagRawSrcs (soup.filter isAnchorOrImg)

/-- The extension-matching references of the page: the raw candidates that
pass the truthy-and-image filter. -/
def tier1Matches (soup : Page) : List String :=
  (tier1RawRefs soup).filter srcKeep

/-! ### Tier 2 of the URL Resolver (source lines 117 to 134). -/

/-- A word character of the regex backslash-w class (ASCII range, which is
what the permalink slugs of this site use). -/
def wordChar (c : Char) : Bool := c.isAlpha || c.isDigit || c == '_'

/-- True when cs begins with slash p slash followed by a word character. -/
def permalinkAt : List Char → Bool
  | '/' :: 'p' :: '/' :: c :: _ => wordChar c
  | _ => false

/-- Regex search for the photo-permalink path pattern (source line 122). -/
def permalinkSearch : List Char → Bool
  | [] => false
  | c :: rest => permalinkAt (c :: rest) || permalinkSearch rest

/-- Embeds the permalink test re.search slash p slash word characters. -/
def hasPermalink (s : String) : Bool := permalinkSearch s.data

/-- The absolute permalink targets of the page (source lines 119 to 123):
anchors carrying an href whose value matches the permalink pattern. -/
def thumbLinks (base : String) (soup : Page) : List String :=
  (soup.filter (fun t => t.name == "a" && (t.get "href").isSome)).filterMap
    (fun t =>
      match t.get "href" with
      | some h => if hasPermalink h then some (absolute base h) else none
      | none => none)

/-- The contribution of one permalink page (source lines 124 to 133): none
when the fetch fails (the broad except arm), otherwise the first image
element carrying a src, kept when its src matches the image pattern.  Note
that unlike Tier 1 the added URL is not query-stripped (source line 131). -/
def pageEntry (f : String → Option Page) (tlink : String) : Option String :=
  match f tlink with
  | none => none
  | some psoup =>
    match psoup.find? (fun t => t.name == "img" && (t.get "src").isSome) with
    | some img =>
      match img.get "src" with
      | some src => if is_image src then some (absolute tlink src) else none
      | none => none
    | none => none

/-- All Tier 2 candidates: one optional entry per permalink target. -/
def tier2Candidates (f : String → Option Page) (base : String) (soup : Page) : List String :=
  (thumbLinks base soup).filterMap (pageEntry f)

/-! ### Sorted deduplicated output (the Python sorted call on a set,
source line 135).  Lexicographic string order, strictly increasing. -/

/-- Lexicographic comparison of character lists by code point, the order
Python uses to sort strings. -/
def ltChars : List Char → List Char → Bool
  | [], [] => false
  | [], _ :: _ => true
  | _ :: _, [] => false
  | a :: as, b :: bs =>
    if a.toNat < b.toNat then true
    else if a.toNat == b.toNat then ltChars as bs
    else false

/-- Lexicographic string comparison by code point. -/
def ltStr (a b : String) : Bool := ltChars a.data b.data

/-- Insert into a strictly sorted list, dropping an exact duplicate. -/
def insertSorted (x : String) : List String → List String
  | [] => [x]
  | y :: ys =>
    if ltStr x y then x :: y :: ys
    else if x = y then y :: ys
    else y :: insertSorted x ys

/-- The strictly sorted list of the distinct elements of l. -/
def sortedDedup (l : List String) : List String := l.foldr insertSorted []

/-- Embeds extract_image_urls (source lines 98 to 135): fetch the album
page (errors propagate), collect Tier 1 candidates, fall back to Tier 2
only when Tier 1 found nothing, return the sorted deduplicated result. -/
def extract_image_urls (sess : Session) (albumUrl : String) : Option (List String) :=
  match sess.fetch albumUrl with
  | none => none
  | some soup =>
    let cand := tier1Candidates albumUrl soup
    let cand2 := if cand.isEmpty then tier2Candidates sess.fetch albumUrl soup else cand
    some (sortedDedup cand2)

/-- The GET requests the Resolver performs, mirroring its control flow: the
album page always, and each permalink target exactly when Tier 1 was
empty. -/
def resolverRequests (sess : Session) (albumUrl : String) : List String :=
  albumUrl ::
    (match sess.fetch albumUrl with
    | none => []
    | some soup =>
      if (tier1Candidates albumUrl soup).isEmpty then thumbLinks albumUrl soup else [])

/-! ### Filesystem model: an association list from paths to contents.
A directory is an entry with empty content; the existence test of the
source (dest.exists) only inspects membership. -/

abbrev FS := List (String × String)

/-- Content stored at a path, if any. -/
def fsGet (fs : FS) (p : String) : Option String :=
  (fs.find? (fun e => e.1 == p)).map (fun e => e.2)

/-- Store content at a path, replacing any previous entry. -/
def fsSet (fs : FS) (p : String) (c : String) : FS :=
  (p, c) :: fs.filter (fun e => e.1 != p)

/-- Remove a path. -/
def fsDel (fs : FS) (p : String) : FS := fs.filter (fun e => e.1 != p)

/-- Existence test, modelling the pathlib exists call. -/
def fsExists (fs : FS) (p : String) : Bool := (fsGet fs p).isSome

/-- The Partial File Marker name (source line 150): with_suffix on the old
suffix plus dot part, which amounts to appending dot part to the name. -/
def marker (dest : String) : String := dest ++ ".part"

/-! ### Transfer Engine (download_one, source lines 143 to 155). -/

/-- Outcome of one streamed GET: a non-success status (raise_for_status
fires before the marker file is opened), an interruption after some chunks
were written (transport or write error inside the with block), or the full
list of body chunks. -/
inductive GetResp where
  | failStatus : GetResp
  | interrupted : List String → GetResp
  | ok : List String → GetResp
  deriving DecidableEq

/-- Result of one Transfer Engine invocation as observed by the Dispatcher:
a normal return (skip or full download) or a raised error. -/
inductive Outcome where
  | ok : Outcome
  | failed : Outcome
  deriving DecidableEq

/-- Embeds download_one (source lines 143 to 155).  Returns the filesystem
after the invocation, the outcome, and the list of GET requests performed.
An existing destination is skipped before any request.  Otherwise the body
is streamed into the marker file; only a fully received body is renamed
onto the destination, and any error leaves the marker in place. -/
def download_one (get : String → GetResp) (url dest : String) (fs : FS) :
    FS × Outcome × List String :=
  if fsExists fs dest then (fs, Outcome.ok, [])
  else
    match get url with
    | GetResp.failStatus => (fs, Outcome.failed, [url])
    | GetResp.interrupted ws =>
      (fsSet fs (marker dest) (String.join ws), Outcome.failed, [url])
    | GetResp.ok chunks =>
      (fsSet (fsDel (fsSet fs (marker dest) (String.join chunks)) (marker dest))
        dest (String.join chunks), Outcome.ok, [url])

/-! ### Destination derivation (source line 196): out_dir joined with the
pathlib name of the parsed path of the URL. -/

/-- Characters following the scheme separator colon slash slash, if any. -/
def afterSchemeMark : List Char → Option (List Char)
  | [] => none
  | ':' :: '/' :: '/' :: rest => some rest
  | _ :: rest => afterSchemeMark rest

/-- The path component of a URL as urlparse yields it: drop the fragment,
drop the query, and for a URL with a scheme keep only the part of the
remainder starting at the first slash after the host. -/
def urlPath (url : String) : String :=
  let cs := (url.data.takeWhile (fun c => c != '#')).takeWhile (fun c => c != '?')
  match afterSchemeMark cs with
  | some rest => String.mk (rest.dropWhile (fun c => c != '/'))
  | none => String.mk cs

/-- Splitting a character list on a separator, like the Python str.split. -/
def splitOnChar (sep : Char) : List Char → List (List Char)
  | [] => [[]]
  | c :: rest =>
    let r := splitOnChar sep rest
    if c == sep then [] :: r
    else
      match r with
      | [] => [[c]]
      | h :: t => (c :: h) :: t

/-- The pathlib name of a path string: the last component after dropping
empty and single-dot components, or the empty string when none remain. -/
def pathName (p : String) : String :=
  match (((splitOnChar '/' p.data).map String.mk).filter
      (fun s => s != "" && s != ".")).getLast? with
  | some s => s
  | none => ""

/-- The Destination Path of a URL (source line 196): the output directory
joined with the pathlib name of the parsed path; joining with an empty
name yields the directory itself. -/
def destName (outDir url : String) : String :=
  let n := pathName (urlPath url)
  if n = "" then outDir else outDir ++ "/" ++ n

/-! ### Dispatcher (source lines 189 to 206).  The thread pool submits one
Transfer Engine invocation per URL and collects every result, catching
each failure individually; the batch semantics are modelled as the fold of
the invocations, one outcome per URL. -/

/-- One invocation per URL; returns the final filesystem, the outcome list
in input order, and the concatenated request log. -/
def dispatch (get : String → GetResp) (outDir : String) :
    List String → FS → FS × List (String × Outcome) × List String
  | [], fs => (fs, [], [])
  | u :: rest, fs =>
    let r := download_one get u (destName outDir u) fs
    let d := dispatch get outDir rest r.1
    (d.1, (u, r.2.1) :: d.2.1, r.2.2 ++ d.2.2)

/-! ### Authenticator (source lines 59 to 72) and entry point (main,
source lines 163 to 208). -/

/-- The case-insensitive rejection marker the Authenticator looks for in
the sign-in response body (source line 71). -/
def REJECT_MARKER : String := "invalid"

/-- Embeds the Authenticator: the sign-in POST result is none on a
transport error, otherwise status and body.  Success requires status 200
and a body whose lower-case form does not contain the rejection marker;
anything else raises. -/
def loginOk (resp : Option (Nat × String)) : Bool :=
  match resp with
  | none => false
  | some (st, body) => st == 200 && !(strContains (lowerStr body) REJECT_MARKER)

/-- How a run of main ends: an Authenticator error (uncaught exception), a
fatal album fetch error (uncaught exception), the explicit sys.exit on an
empty Resolver result, or a completed batch with its outcomes. -/
inductive RunResult where
  | authFailed : RunResult
  | fetchFailed : RunResult
  | noImages : RunResult
  | completed : List (String × Outcome) → RunResult
  deriving DecidableEq

/-- The process exit status of each run result; an uncaught Python
exception terminates the interpreter with status 1. -/
def exitCode : RunResult → Nat
  | RunResult.authFailed => 1
  | RunResult.fetchFailed => 1
  | RunResult.noImages => 1
  | RunResult.completed _ => 0

/-- The inputs of main that matter here: the album URL, the output
directory, and whether both credentials were supplied. -/
structure Config where
  albumUrl : String
  outDir : String
  creds : Bool
  deriving DecidableEq

/-- The mkdir call on the output directory (source line 173). -/
def mkdirFS (fs : FS) (d : String) : FS := if fsExists fs d then fs else fsSet fs d ""

/-- Embeds main (source lines 163 to 208): create the output directory,
sign in when credentials were given (failure aborts before any GET), fetch
and resolve the album (failure aborts), exit with status 1 on an empty
result, otherwise dispatch every URL and finish normally.  Returns the run
result and the log of GET requests performed. -/
def mainRun (post : Option (Nat × String)) (sess : Session) (get : String → GetResp)
    (cfg : Config) (fs0 : FS) : RunResult × List String :=
  let fs1 := mkdirFS fs0 cfg.outDir
  if cfg.creds && !(loginOk post) then (RunResult.authFailed, [])
  else
    match extract_image_urls sess cfg.albumUrl with
    | none => (RunResult.fetchFailed, resolverRequests sess cfg.albumUrl)
    | some [] => (RunResult.noImages, resolverRequests sess cfg.albumUrl)
    | some (u :: us) =>
      let d := dispatch get cfg.outDir (u :: us) fs1
      (RunResult.completed d.2.1, resolverRequests sess cfg.albumUrl ++ d.2.2)

/-- True when the string contains a question mark followed by a nonempty
query part. -/
def hasQuery (s : String) : Bool :=
  match s.data.dropWhile (fun c => c != '?') with
  | '?' :: _ :: _ => true
  | _ => false

/-! ### Concrete fixtures used to evaluate the theorems on closed inputs. -/

/-- A GET that always reports a non-success status. -/
def getFail : String → GetResp := fun _ => GetResp.failStatus

/-- A GET that is interrupted after one written chunk. -/
def getInterrupted : String → GetResp := fun _ => GetResp.interrupted ["ab"]

/-- A GET that delivers a full two-chunk body. -/
def getOkChunks : String → GetResp := fun _ => GetResp.ok ["ab", "cd"]

/-- Album URL of the Tier 2 query-string scenario. -/
def albumC1 : String := "https://fotoshare.co/i/AAA"

/-- Album page holding only a photo-permalink anchor, so Tier 1 is empty. -/
def pageC1 : Page := [⟨"a", [("href", "/p/x1")]⟩]

/-- Permalink page whose first image keeps a query string on its source. -/
def photoPageC1 : Page := [⟨"img", [("src", "https://h/a.jpg?x=1")]⟩]

/-- Session of the Tier 2 query-string scenario. -/
def sessC1 : Session :=
  ⟨fun u =>
    if u = albumC1 then some pageC1
    else if u = "https://fotoshare.co/p/x1" then some photoPageC1
    else none⟩

/-- Album URL of a Tier 1 scenario with a query-carrying attribute. -/
def albumA1 : String := "https://site/i/A1"

/-- Album page with one directly embedded full-resolution image. -/
def pageA1 : Page := [⟨"img", [("data-full", "https://site/full/c.jpg?k=2")]⟩]

/-- Session of the Tier 1 query-stripping scenario. -/
def sessA1 : Session := ⟨fun u => if u = albumA1 then some pageA1 else none⟩

/-- Album URL of the end-to-end Tier 1 scenario of the specification. -/
def albumS : String := "https://site/i/AL"

/-- Album page of the end-to-end Tier 1 scenario: one query-carrying
data-full image and one relative thumbnail source. -/
def pageS : Page :=
  [⟨"img", [("data-full", "https://site/full/a.jpg?x=1")]⟩,
   ⟨"img", [("src", "thumb/b.png")]⟩]

/-- Session of the end-to-end Tier 1 scenario. -/
def sessS : Session := ⟨fun u => if u = albumS then some pageS else none⟩

/-- Album URL of the Tier 2 first-image scenario. -/
def albumC7 : String := "https://fotoshare.co/i/BBB"

/-- Album page holding only a photo-permalink anchor. -/
def pageC7 : Page := [⟨"a", [("href", "/p/y1")]⟩]

/-- Permalink page whose first image source is not an image file but whose
second one is. -/
def photoPageC7 : Page :=
  [⟨"img", [("src", "thumb.txt")]⟩, ⟨"img", [("src", "https://h/b.jpg")]⟩]

/-- Session of the Tier 2 first-image scenario. -/
def sessC7 : Session :=
  ⟨fun u =>
    if u = albumC7 then some pageC7
    else if u = "https://fotoshare.co/p/y1" then some photoPageC7
    else none⟩

/-- Base URL of the Tier 2 failure-isolation scenario. -/
def baseW7 : String := "https://site/i/W"

/-- Album page of the failure-isolation scenario, two permalink anchors. -/
def soupW7 : Page := [⟨"a", [("href", "/p/a1")]⟩, ⟨"a", [("href", "/p/b2")]⟩]

/-- Healthy fetch of the failure-isolation scenario. -/
def fW7 : String → Option Page := fun u =>
  if u = "https://site/p/a1" then some [⟨"img", [("src", "https://site/full/a.jpg")]⟩]
  else if u = "https://site/p/b2" then some [⟨"img", [("src", "https://site/full/b.jpg")]⟩]
  else none

/-- The permalink target whose fetch fails in the degraded session. -/
def tbadW7 : String := "https://site/p/a1"

/-- Degraded fetch: like fW7 except that tbadW7 fails. -/
def gW7 : String → Option Page := fun t => if t = tbadW7 then none else fW7 t

/-- Configuration with credentials supplied, for the Authenticator runs. -/
def cfgC6 : Config := ⟨"https://fotoshare.co/i/CCC", "/out", true⟩

/-- A session that is never reached in the Authenticator-failure runs. -/
def sessC6 : Session := ⟨fun _ => none⟩

/-- Album URL of the empty-result run. -/
def albumC8 : String := "https://fotoshare.co/i/DDD"

/-- Configuration without credentials for the empty-result run. -/
def cfgC8 : Config := ⟨albumC8, "/out", false⟩

/-- Session whose album page parses but holds no image reference at all. -/
def sessC8 : Session := ⟨fun u => if u = albumC8 then some [] else none⟩

/-- Base URL of the multi-attribute image element scenario. -/
def baseW9 : String := "https://site/i/E"

/-- An image element carrying all four priority attributes at once. -/
def tagW9 : Tag :=
  ⟨"img",
   [("data-full", "https://site/full/e.jpg?d=1"), ("data-original", "https://site/orig/e.jpg"),
    ("data-src", "/lazy/e.png"), ("src", "thumb/e.gif")]⟩

/-- Page holding the single four-attribute image element. -/
def soupW9 : Page := [tagW9]

/-! ### Supporting lemmas -/

/-- The marker path is distinct from the destination path. -/
theorem marker_ne (d : String) : marker d ≠ d := by
  intro h
  have hl := congrArg String.length h
  rw [marker, String.length_append] at hl
  have h5 : (".part" : String).length = 5 := rfl
  rw [h5] at hl
  omega

/-- Filtering out the key p does not change a lookup of a different key. -/
theorem find?_filter_ne (fs : FS) (p q : String) (h : q ≠ p) :
    (fs.filter (fun e => e.1 != p)).find? (fun e => e.1 == q) =
      fs.find? (fun e => e.1 == q) := by
  induction fs with
  | nil => rfl
  | cons e fs ih =>
    by_cases hk : e.1 = p
    · have h1 : ¬((e.1 != p) = true) := by simp [hk]
      have h2 : ¬((e.1 == q) = true) := by
        simp only [beq_iff_eq]
        intro hq2
        exact h (by rw [← hq2, hk])
      rw [List.filter_cons, if_neg h1,
        @List.find?_cons_of_neg _ (fun e => e.1 == q) e fs h2]
      exact ih
    · have h1 : (e.1 != p) = true := by simp [hk]
      rw [List.filter_cons, if_pos h1]
      by_cases hq : (e.1 == q) = true
      · rw [@List.find?_cons_of_pos _ (fun e => e.1 == q) e
            (List.filter (fun e => e.1 != p) fs) hq,
          @List.find?_cons_of_pos _ (fun e => e.1 == q) e fs hq]
      · rw [@List.find?_cons_of_neg _ (fun e => e.1 == q) e
            (List.filter (fun e => e.1 != p) fs) hq,
          @List.find?_cons_of_neg _ (fun e => e.1 == q) e fs hq]
        exact ih

/-- A lookup of the removed key itself fails. -/
theorem find?_filter_self (fs : FS) (p : String) :
    (fs.filter (fun e => e.1 != p)).find? (fun e => e.1 == p) = none := by
  induction fs with
  | nil => rfl
  | cons e fs ih =>
    by_cases hk : e.1 = p
    · have h1 : ¬((e.1 != p) = true) := by simp [hk]
      rw [List.filter_cons, if_neg h1]
      exact ih
    · have h1 : (e.1 != p) = true := by simp [hk]
      have h2 : ¬((e.1 == p) = true) := by simp [hk]
      rw [List.filter_cons, if_pos h1,
        @List.find?_cons_of_neg _ (fun e => e.1 == p) e
          (List.filter (fun e => e.1 != p) fs) h2]
      exact ih

/-- Lookup after a store. -/
theorem fsGet_fsSet (fs : FS) (p c q : String) :
    fsGet (fsSet fs p c) q = if q = p then some c else fsGet fs q := by
  by_cases h : q = p
  · rw [if_pos h, h]
    show Option.map (fun e => e.2)
        (List.find? (fun e => e.1 == p) ((p, c) :: List.filter (fun e => e.1 != p) fs)) =
      some c
    rw [@List.find?_cons_of_pos _ (fun e => e.1 == p) (p, c)
        (List.filter (fun e => e.1 != p) fs) (by simp)]
    rfl
  · rw [if_neg h]
    show Option.map (fun e => e.2)
        (List.find? (fun e => e.1 == q) ((p, c) :: List.filter (fun e => e.1 != p) fs)) =
      fsGet fs q
    have h2 : ¬((((p, c) : String × String).1 == q) = true) := by
      simp only [beq_iff_eq]
      exact fun hpq => h hpq.symm
    rw [@List.find?_cons_of_neg _ (fun e => e.1 == q) (p, c)
        (List.filter (fun e => e.1 != p) fs) h2]
    rw [find?_filter_ne fs p q h]
    rfl

/-- Lookup after a removal. -/
theorem fsGet_fsDel (fs : FS) (p q : String) :
    fsGet (fsDel fs p) q = if q = p then none else fsGet fs q := by
  by_cases h : q = p
  · rw [if_pos h, h]
    show Option.map (fun e => e.2)
        (List.find? (fun e => e.1 == p) (List.filter (fun e => e.1 != p) fs)) = none
    rw [find?_filter_self fs p]
    rfl
  · rw [if_neg h]
    show Option.map (fun e => e.2)
        (List.find? (fun e => e.1 == q) (List.filter (fun e => e.1 != p) fs)) = fsGet fs q
    rw [find?_filter_ne fs p q h]
    rfl

/-- Existence is definable from lookup. -/
theorem fsExists_eq_false (fs : FS) (p : String) (h : fsGet fs p = none) :
    fsExists fs p = false := by
  simp [fsExists, h]

/-- Membership in an ordered insertion comes from the new element or the
old list. -/
theorem mem_insertSorted {u x : String} {l : List String}
    (h : u ∈ insertSorted x l) : u = x ∨ u ∈ l := by
  induction l with
  | nil =>
    rw [insertSorted] at h
    exact Or.inl (List.mem_singleton.mp h)
  | cons y ys ih =>
    rw [insertSorted] at h
    by_cases h1 : ltStr x y
    · rw [if_pos h1] at h
      rcases List.mem_cons.mp h with h2 | h2
      · exact Or.inl h2
      · exact Or.inr h2
    · rw [if_neg h1] at h
      by_cases h2 : x = y
      · rw [if_pos h2] at h
        exact Or.inr h
      · rw [if_neg h2] at h
        rcases List.mem_cons.mp h with h3 | h3
        · exact Or.inr (h3 ▸ List.mem_cons_self y ys)
        · rcases ih h3 with h4 | h4
          · exact Or.inl h4
          · exact Or.inr (List.mem_cons_of_mem y h4)

/-- Every element of the sorted deduplicated list occurs in the input. -/
theorem mem_sortedDedup {u : String} {l : List String}
    (h : u ∈ sortedDedup l) : u ∈ l := by
  induction l with
  | nil => exact absurd h (List.not_mem_nil u)
  | cons a l ih =>
    have hs : sortedDedup (a :: l) = insertSorted a (sortedDedup l) := rfl
    rw [hs] at h
    rcases mem_insertSorted h with h1 | h1
    · exact h1 ▸ List.mem_cons_self a l
    · exact List.mem_cons_of_mem a (ih h1)

/-- Membership introduction for catMap. -/
theorem mem_catMap {α β : Type} {f : α → List β} {l : List α} {a : α} {b : β}
    (ha : a ∈ l) (hb : b ∈ f a) : b ∈ catMap f l := by
  induction l with
  | nil => exact absurd ha (List.not_mem_nil a)
  | cons x xs ih =>
    rcases List.mem_cons.mp ha with h | h
    · subst h
      exact List.mem_append_left _ hb
    · exact List.mem_append_right _ (ih h)

/-- A filter and a map distribute over catMap. -/
theorem catMap_push {α β γ : Type} (g : α → List β) (p : β → Bool) (f : β → γ)
    (l : List α) :
    catMap (fun a => ((g a).filter p).map f) l = ((catMap g l).filter p).map f := by
  induction l with
  | nil => rfl
  | cons x xs ih =>
    simp only [catMap, List.filter_append, List.map_append, ih]

/-- Tier 1 candidates are exactly the cleaned forms of the matching raw
references of the page. -/
theorem tier1_eq (base : String) (soup : Page) :
    tier1Candidates base soup = (tier1Matches soup).map (cleanUrl base) := by
  simp only [tier1Candidates, tier1Matches, tier1RawRefs, tagCandidates]
  exact catMap_push tagRawSrcs srcKeep (cleanUrl base) (soup.filter isAnchorOrImg)

/-- An initial-run test against a longer needle entails the test against
the shorter one. -/
theorem leadChars_append_left {n1 n2 cs : List Char}
    (h : leadChars (n1 ++ n2) cs = true) : leadChars n1 cs = true := by
  induction n1 generalizing cs with
  | nil => rfl
  | cons a as ih =>
    cases cs with
    | nil => simp [leadChars] at h
    | cons b bs =>
      simp only [List.cons_append, leadChars, Bool.and_eq_true] at h ⊢
      exact ⟨h.1, ih h.2⟩

/-- A substring test against a longer needle entails the test against an
initial part of it. -/
theorem subChars_append_left {n1 n2 hay : List Char}
    (h : subChars (n1 ++ n2) hay = true) : subChars n1 hay = true := by
  induction hay with
  | nil =>
    simp only [subChars, List.isEmpty_iff, List.append_eq_nil] at h
    simp [subChars, List.isEmpty_iff, h.1]
  | cons c rest ih =>
    simp only [subChars, Bool.or_eq_true] at h ⊢
    rcases h with h | h
    · exact Or.inl (leadChars_append_left h)
    · exact Or.inr (ih h)

/-- Containment of a longer needle entails containment of an initial part
of it. -/
theorem strContains_append_left (hay n1 n2 : String)
    (h : strContains hay (n1 ++ n2) = true) : strContains hay n1 = true := by
  have hd : (n1 ++ n2).data = n1.data ++ n2.data := String.data_append n1 n2
  rw [strContains, hd] at h
  exact subChars_append_left h

/-- Query stripping leaves no question mark in the result. -/
theorem stripQuery_no_mark (s : String) : '?' ∉ (stripQuery s).data := by
  intro h
  have hp := List.mem_takeWhile_imp h
  simp at hp

/-- Pointwise equal functions give equal filterMap results. -/
theorem filterMap_ext_mem {α β : Type} {f g : α → Option β} {l : List α}
    (h : ∀ a ∈ l, f a = g a) : l.filterMap f = l.filterMap g := by
  induction l with
  | nil => rfl
  | cons x xs ih =>
    have hx := h x (List.mem_cons_self x xs)
    have ih2 := ih (fun a ha => h a (List.mem_cons_of_mem x ha))
    simp only [List.filterMap_cons, hx, ih2]

/-- A missing path stays missing under the existence test. -/
theorem fsGet_none_of_exists_false (fs : FS) (p : String)
    (h : fsExists fs p = false) : fsGet fs p = none := by
  cases hg : fsGet fs p with
  | none => rfl
  | some c =>
    rw [fsExists, hg] at h
    simp at h

/-! ### Claim theorems -/

/-- C1, counterexample: on a Tier 2 run the Resolver returns a URL that
still carries its query string, so not every returned URL is
query-stripped. -/
theorem resolver_query_counterexample :
    extract_image_urls sessC1 albumC1 = some ["https://h/a.jpg?x=1"] ∧
    hasQuery "https://h/a.jpg?x=1" = true := by
  exact ⟨by decide, by decide⟩

/-- C1, amended: every URL the Resolver returns out of Tier 1 is
query-stripped; only Tier 2 URLs may retain a query string. -/
theorem resolver_tier1_query_stripped (sess : Session) (albumUrl : String)
    (soup : Page) (out : List String) (u : String)
    (hfetch : sess.fetch albumUrl = some soup)
    (hne : tier1Candidates albumUrl soup ≠ [])
    (hout : extract_image_urls sess albumUrl = some out)
    (hu : u ∈ out) : '?' ∉ u.data := by
  have hie : (tier1Candidates albumUrl soup).isEmpty = false := by
    cases hc : tier1Candidates albumUrl soup
    · exact absurd hc hne
    · rfl
  rw [extract_image_urls, hfetch] at hout
  simp only [hie, Bool.false_eq_true, if_false, Option.some.injEq] at hout
  rw [← hout] at hu
  have hmem := mem_sortedDedup hu
  rw [tier1_eq] at hmem
  rcases List.mem_map.mp hmem with ⟨s, _, hs⟩
  rw [← hs]
  exact stripQuery_no_mark (absolute albumUrl s)

/-- C1, witness for the amended theorem on a concrete Tier 1 album. -/
theorem resolver_tier1_query_stripped_witness :
    '?' ∉ ("https://site/full/c.jpg" : String).data :=
  resolver_tier1_query_stripped sessA1 albumA1 pageA1 ["https://site/full/c.jpg"]
    "https://site/full/c.jpg" (by decide) (by decide) (by decide) (by decide)

/-- C2: when the album page holds at least one extension-matching anchor
target or image attribute value, the Resolver output is exactly the sorted
deduplicated list of the query-stripped absolute forms of those matching
references, and no Tier 2 page is ever requested. -/
theorem resolver_tier1_exact (sess : Session) (albumUrl : String) (soup : Page)
    (hfetch : sess.fetch albumUrl = some soup)
    (hne : tier1Matches soup ≠ []) :
    extract_image_urls sess albumUrl =
      some (sortedDedup ((tier1Matches soup).map (cleanUrl albumUrl))) ∧
    resolverRequests sess albumUrl = [albumUrl] := by
  have hcne : tier1Candidates albumUrl soup ≠ [] := by
    rw [tier1_eq]
    simp only [ne_eq, List.map_eq_nil_iff]
    exact hne
  have hie : (tier1Candidates albumUrl soup).isEmpty = false := by
    cases hc : tier1Candidates albumUrl soup
    · exact absurd hc hcne
    · rfl
  constructor
  · rw [extract_image_urls, hfetch]
    simp only [hie, Bool.false_eq_true, if_false]
    rw [tier1_eq]
  · rw [resolverRequests, hfetch]
    simp only [hie, Bool.false_eq_true, if_false]

/-- C2, witness: the end-to-end Tier 1 scenario of the specification. -/
theorem resolver_tier1_exact_witness :
    extract_image_urls sessS albumS =
      some ["https://site/full/a.jpg", "https://site/i/thumb/b.png"] ∧
    resolverRequests sessS albumS = [albumS] := by
  have h := resolver_tier1_exact sessS albumS pageS (by decide) (by decide)
  exact ⟨h.1.trans (by decide), h.2⟩

/-- C3: the Transfer Engine is idempotent at file-existence granularity:
an existing destination means no request, an unchanged filesystem and a
success outcome, and after any successful invocation a second invocation
is such a no-op. -/
theorem transfer_idempotent :
    (∀ (get : String → GetResp) (url dest : String) (fs : FS) (c : String),
      fsGet fs dest = some c →
      download_one get url dest fs = (fs, Outcome.ok, [])) ∧
    (∀ (get : String → GetResp) (url dest : String) (fs fs1 : FS)
      (reqs : List String),
      download_one get url dest fs = (fs1, Outcome.ok, reqs) →
      download_one get url dest fs1 = (fs1, Outcome.ok, [])) := by
  constructor
  · intro get url dest fs c hc
    have he : fsExists fs dest = true := by simp [fsExists, hc]
    simp [download_one, he]
  · intro get url dest fs fs1 reqs hrun
    by_cases he : fsExists fs dest = true
    · rw [download_one, if_pos he] at hrun
      simp only [Prod.mk.injEq] at hrun
      rw [← hrun.1]
      simp [download_one, he]
    · simp only [Bool.not_eq_true] at he
      rw [download_one] at hrun
      rw [he] at hrun
      simp only [Bool.false_eq_true, if_false] at hrun
      cases hget : get url with
      | failStatus =>
        rw [hget] at hrun
        simp at hrun
      | interrupted ws =>
        rw [hget] at hrun
        simp at hrun
      | ok chunks =>
        rw [hget] at hrun
        simp only [Prod.mk.injEq] at hrun
        have hfs1 : fsGet fs1 dest = some (String.join chunks) := by
          rw [← hrun.1, fsGet_fsSet, if_pos rfl]
        have he1 : fsExists fs1 dest = true := by simp [fsExists, hfs1]
        simp [download_one, he1]

/-- C3, witness: a skip on an existing file and a no-op second run. -/
theorem transfer_idempotent_witness :
    download_one getFail "u" "d.jpg" ([("d.jpg", "x")] : FS) =
      ([("d.jpg", "x")], Outcome.ok, []) ∧
    download_one getOkChunks "u2" "e.jpg" ([("e.jpg", "abcd")] : FS) =
      ([("e.jpg", "abcd")], Outcome.ok, []) := by
  refine ⟨transfer_idempotent.1 getFail "u" "d.jpg" _ "x" (by decide), ?_⟩
  exact transfer_idempotent.2 getOkChunks "u2" "e.jpg" [] [("e.jpg", "abcd")] ["u2"]
    (by decide)

/-- C4: a failing invocation never creates the destination file and
touches at most the marker path, and the destination is only written with
the full received body. -/
theorem transfer_atomic :
    (∀ (get : String → GetResp) (url dest : String) (fs fs1 : FS)
      (reqs : List String),
      download_one get url dest fs = (fs1, Outcome.failed, reqs) →
      fsGet fs1 dest = none ∧
      (∀ p, p ≠ marker dest → fsGet fs1 p = fsGet fs p)) ∧
    (∀ (get : String → GetResp) (url dest : String) (fs : FS)
      (chunks : List String),
      fsExists fs dest = false → get url = GetResp.ok chunks →
      fsGet (download_one get url dest fs).1 dest = some (String.join chunks)) := by
  constructor
  · intro get url dest fs fs1 reqs hrun
    by_cases he : fsExists fs dest = true
    · rw [download_one, if_pos he] at hrun
      simp at hrun
    · simp only [Bool.not_eq_true] at he
      have hn : fsGet fs dest = none := fsGet_none_of_exists_false fs dest he
      rw [download_one] at hrun
      rw [he] at hrun
      simp only [Bool.false_eq_true, if_false] at hrun
      cases hget : get url with
      | failStatus =>
        rw [hget] at hrun
        simp only [Prod.mk.injEq] at hrun
        rw [← hrun.1]
        exact ⟨hn, fun p _ => rfl⟩
      | interrupted ws =>
        rw [hget] at hrun
        simp only [Prod.mk.injEq] at hrun
        rw [← hrun.1]
        constructor
        · rw [fsGet_fsSet, if_neg (fun hdm => (marker_ne dest) hdm.symm)]
          exact hn
        · intro p hp
          rw [fsGet_fsSet, if_neg hp]
      | ok chunks =>
        rw [hget] at hrun
        simp at hrun
  · intro get url dest fs chunks he hget
    rw [download_one]
    rw [he]
    simp only [Bool.false_eq_true, if_false]
    rw [hget]
    simp only
    rw [fsGet_fsSet, if_pos rfl]

/-- C4, witness: an interrupted run leaves no destination file, and a full
run writes the complete body there. -/
theorem transfer_atomic_witness :
    fsGet ([("o/a.jpg.part", "ab")] : FS) "o/a.jpg" = none ∧
    fsGet (download_one getOkChunks "u" "o/a.jpg" ([] : FS)).1 "o/a.jpg" =
      some "abcd" := by
  have h1 := (transfer_atomic.1 getInterrupted "u" "o/a.jpg" []
    [("o/a.jpg.part", "ab")] ["u"] (by decide)).1
  have h2 := transfer_atomic.2 getOkChunks "u" "o/a.jpg" [] ["ab", "cd"]
    (by decide) (by decide)
  exact ⟨h1, h2.trans (by decide)⟩

/-- C5: the Dispatcher produces one outcome per input URL, in input order,
whatever the per-URL GET results are, so no individual failure ever
prevents the remaining URLs from being attempted. -/
theorem dispatcher_total (get : String → GetResp) (outDir : String)
    (urls : List String) (fs : FS) :
    ((dispatch get outDir urls fs).2.1).map Prod.fst = urls ∧
    ((dispatch get outDir urls fs).2.1).length = urls.length := by
  induction urls generalizing fs with
  | nil => exact ⟨rfl, rfl⟩
  | cons u rest ih =>
    have ih2 := ih (download_one get u (destName outDir u) fs).1
    refine ⟨?_, ?_⟩ <;> simp [dispatch, ih2.1, ih2.2]

/-- C6: the Authenticator succeeds exactly on a status-200 response whose
body lacks the rejection marker; a 200 body containing invalid password in
any case fails, and in main a failed sign-in aborts the run before any GET
request. -/
theorem authenticator_exact :
    (∀ (st : Nat) (body : String),
      loginOk (some (st, body)) = true ↔
        (st = 200 ∧ strContains (lowerStr body) REJECT_MARKER = false)) ∧
    (∀ body : String,
      strContains (lowerStr body) "invalid password" = true →
      loginOk (some (200, body)) = false) ∧
    loginOk none = false ∧
    (∀ (post : Option (Nat × String)) (sess : Session) (get : String → GetResp)
      (cfg : Config) (fs0 : FS),
      cfg.creds = true → loginOk post = false →
      mainRun post sess get cfg fs0 = (RunResult.authFailed, [])) := by
  refine ⟨?_, ?_, rfl, ?_⟩
  · intro st body
    simp [loginOk]
  · intro body h
    have hm : strContains (lowerStr body) REJECT_MARKER = true := by
      have happ : ("invalid" : String) ++ " password" = "invalid password" := rfl
      exact strContains_append_left (lowerStr body) "invalid" " password"
        (by rw [happ]; exact h)
    simp [loginOk, hm]
  · intro post sess get cfg fs0 hc hl
    simp [mainRun, hc, hl]

/-- C6, witness: a 200 response carrying INVALID PASSWORD fails the
sign-in and aborts the run with no GET request performed. -/
theorem authenticator_exact_witness :
    loginOk (some (200, "Sorry, INVALID PASSWORD friend")) = false ∧
    mainRun (some (200, "Sorry, INVALID PASSWORD friend")) sessC6 getFail cfgC6 [] =
      (RunResult.authFailed, []) := by
  have hb : strContains (lowerStr "Sorry, INVALID PASSWORD friend")
      "invalid password" = true := by decide
  have h1 := authenticator_exact.2.1 "Sorry, INVALID PASSWORD friend" hb
  exact ⟨h1, authenticator_exact.2.2.2 (some (200, "Sorry, INVALID PASSWORD friend"))
    sessC6 getFail cfgC6 [] rfl h1⟩

/-- C7, counterexample: a permalink page that is fetched successfully and
does contain an extension-matching image element can still contribute zero
entries, because only the first image element with a source is inspected. -/
theorem tier2_first_image_counterexample :
    extract_image_urls sessC7 albumC7 = some [] ∧
    resolverRequests sessC7 albumC7 = [albumC7, "https://fotoshare.co/p/y1"] ∧
    sessC7.fetch "https://fotoshare.co/p/y1" = some photoPageC7 ∧
    photoPageC7.any (fun t => t.name == "img" &&
      (match t.get "src" with
       | some v => is_image v
       | none => false)) = true := by
  exact ⟨by decide, by decide, by decide, by decide⟩

/-- C7, amended: Tier 2 yields at most one entry per permalink page,
namely from its first image element with a source; a page whose fetch
fails contributes nothing, and failing one page leaves every other page's
contribution unchanged. -/
theorem tier2_isolation (f g : String → Option Page) (base : String) (soup : Page)
    (tbad : String)
    (hbad : g tbad = none)
    (hagree : ∀ t, t ≠ tbad → g t = f t) :
    (∀ t, f t = none → pageEntry f t = none) ∧
    tier2Candidates g base soup =
      (thumbLinks base soup).filterMap
        (fun t => if t = tbad then none else pageEntry f t) := by
  constructor
  · intro t ht
    simp [pageEntry, ht]
  · rw [tier2Candidates]
    apply filterMap_ext_mem
    intro t _
    by_cases h : t = tbad
    · rw [if_pos h, h]
      simp [pageEntry, hbad]
    · rw [if_neg h]
      simp only [pageEntry, hagree t h]

/-- C7, witness for the amended theorem: failing the first of two
permalink pages leaves exactly the second page's entry. -/
theorem tier2_isolation_witness :
    tier2Candidates gW7 baseW7 soupW7 = ["https://site/full/b.jpg"] := by
  have h := (tier2_isolation fW7 gW7 baseW7 soupW7 tbadW7 (by decide)
    (fun t ht => by
      show (if t = tbadW7 then none else fW7 t) = fW7 t
      rw [if_neg ht])).2
  exact h.trans (by decide)

/-- C8, counterexample: a run whose sign-in fails exits with status 1 even
though the Resolver never returned an empty result after a successful
album fetch (no GET was performed at all). -/
theorem exit_code_counterexample :
    mainRun none sessC6 getFail cfgC6 [] = (RunResult.authFailed, []) ∧
    exitCode (mainRun none sessC6 getFail cfgC6 []).1 = 1 := by
  exact ⟨by decide, by decide⟩

/-- C8, amended: once sign-in (when attempted) and the album fetch
succeed, the exit status is 1 exactly when the Resolver result is empty
and 0 otherwise, whatever the individual download outcomes are; sign-in
and album-fetch failures terminate with status 1 through an uncaught
exception. -/
theorem exit_code_amended (post : Option (Nat × String)) (sess : Session)
    (get : String → GetResp) (cfg : Config) (fs0 : FS) (soup : Page)
    (hlogin : cfg.creds = true → loginOk post = true)
    (hfetch : sess.fetch cfg.albumUrl = some soup) :
    exitCode (mainRun post sess get cfg fs0).1 =
      (if extract_image_urls sess cfg.albumUrl = some [] then 1 else 0) := by
  have hguard : (cfg.creds && !(loginOk post)) = false := by
    cases hc : cfg.creds
    · rfl
    · simp [hlogin hc]
  cases hcand : extract_image_urls sess cfg.albumUrl with
  | none =>
    rw [extract_image_urls, hfetch] at hcand
    simp at hcand
  | some l =>
    cases l with
    | nil => simp [mainRun, hguard, hcand, exitCode]
    | cons u us => simp [mainRun, hguard, hcand, exitCode]

/-- C8, witness for the amended theorem: a successfully fetched album page
with no image reference at all exits with status 1. -/
theorem exit_code_amended_witness :
    exitCode (mainRun none sessC8 getFail cfgC8 []).1 = 1 := by
  have h := exit_code_amended none sessC8 getFail cfgC8 [] []
    (fun hc => absurd hc (by decide)) (by decide)
  exact h.trans (by decide)

/-- C9: an image element carrying all four priority attributes has every
one of their values collected as a separate raw candidate, and each value
that passes the image filter reaches the Tier 1 candidate list, so one
element can contribute several candidates. -/
theorem tier1_all_attrs (base : String) (soup : Page) (t : Tag)
    (v1 v2 v3 v4 : String)
    (hmem : t ∈ soup) (hname : t.name = "img")
    (h1 : t.get "data-full" = some v1) (h2 : t.get "data-original" = some v2)
    (h3 : t.get "data-src" = some v3) (h4 : t.get "src" = some v4) :
    tagRawSrcs t = [v1, v2, v3, v4] ∧
    (∀ v, v ∈ [v1, v2, v3, v4] → srcKeep v = true →
      cleanUrl base v ∈ tier1Candidates base soup) := by
  have hraw : tagRawSrcs t = [v1, v2, v3, v4] := by
    simp [tagRawSrcs, hname, FULL_RES_ATTRS, h1, h2, h3, h4]
  refine ⟨hraw, ?_⟩
  intro v hv hkeep
  have htf : isAnchorOrImg t = true := by simp [isAnchorOrImg, hname]
  have hmf : t ∈ soup.filter isAnchorOrImg := List.mem_filter.mpr ⟨hmem, htf⟩
  have hcand : cleanUrl base v ∈ tagCandidates base t := by
    rw [tagCandidates, hraw]
    exact List.mem_map_of_mem (cleanUrl base) (List.mem_filter.mpr ⟨hv, hkeep⟩)
  exact mem_catMap hmf hcand

/-- C9, witness: a single element with all four attributes contributes two
distinct cleaned candidates to the Tier 1 list. -/
theorem tier1_all_attrs_witness :
    tagRawSrcs tagW9 = ["https://site/full/e.jpg?d=1", "https://site/orig/e.jpg",
      "/lazy/e.png", "thumb/e.gif"] ∧
    cleanUrl baseW9 "https://site/full/e.jpg?d=1" ∈ tier1Candidates baseW9 soupW9 ∧
    cleanUrl baseW9 "thumb/e.gif" ∈ tier1Candidates baseW9 soupW9 := by
  have h := tier1_all_attrs baseW9 soupW9 tagW9 "https://site/full/e.jpg?d=1"
    "https://site/orig/e.jpg" "/lazy/e.png" "thumb/e.gif"
    (by decide) rfl (by decide) (by decide) (by decide) (by decide)
  exact ⟨h.1, h.2 _ (by decide) (by decide), h.2 _ (by decide) (by decide)⟩

/-- C10, counterexample: a URL whose path ends in a slash does not map to
the output directory itself; the trailing slash is dropped and the last
nonempty segment is used. -/
theorem dest_path_counterexample :
    (urlPath "https://site/a/b/").data.getLast? = some '/' ∧
    destName "/out" "https://site/a/b/" = "/out/b" ∧
    destName "/out" "https://site/a/b/" ≠ "/out" := by
  exact ⟨by decide, by decide, by decide⟩

/-- C10, amended: only when the derived path name is empty (path slash or
no path at all) does the Destination Path equal the output directory, and
then an existing output directory makes the Transfer Engine skip with a
success outcome and no request. -/
theorem dest_path_empty_name (get : String → GetResp) (url outDir : String)
    (fs : FS)
    (hname : pathName (urlPath url) = "")
    (hdir : fsExists fs outDir = true) :
    destName outDir url = outDir ∧
    download_one get url (destName outDir url) fs = (fs, Outcome.ok, []) := by
  have hd : destName outDir url = outDir := by
    simp [destName, hname]
  refine ⟨hd, ?_⟩
  rw [hd]
  simp [download_one, hdir]

/-- C10, witness for the amended theorem: a URL with a bare slash path is
skipped against the existing output directory. -/
theorem dest_path_empty_name_witness :
    destName "/out" "https://site/" = "/out" ∧
    download_one getFail "https://site/" (destName "/out" "https://site/")
      [("/out", "")] = ([("/out", "")], Outcome.ok, []) :=
  dest_path_empty_name getFail "https://site/" "/out" [("/out", "")]
    (by decide) (by decide)

end Fotoshare
